import Mathlib

/-!
Verification development for `downloadGateIO.py` (kredittkort1/cryptoPriceData).

The script has two phases: symbol discovery (`get_usdt_btc_trading_pairs`) and
an archive fetcher (`download_candlestick_data`) that, for a ticker and a
timeframe, walks backward one calendar month at a time from the month of
`date.today() - 50 days`, downloading a gzip-compressed per-month CSV file if
it is missing or corrupt, stopping when a request answers 404.

The embedding below models:
  - calendar dates and month keys (the script manipulates `datetime.date`
    values and derives the month key with `strftime("%Y%m")`; stepping the
    date by `relativedelta(months=1)` moves the month key back by exactly one
    calendar month, so the walk is modelled directly on month keys);
  - the filesystem as a map from (ticker, timeframe, month) keys to optional
    file contents — the script partitions paths by these three components;
  - the remote archive as a map from the same keys to a response: a body,
    a 404, another non-2xx HTTP status (raised as `HTTPError` by
    `raise_for_status`), or a connection-level failure (an exception that is
    not an `HTTPError`);
  - gzip container validity: `gzip.open(p).read(1)` succeeds — returning up
    to one byte, possibly zero bytes — exactly when the container is well
    formed, and raises `OSError`/`EOFError` otherwise;
  - the per-iteration body of the `while True:` loop (`step`) and the fueled
    loop itself (`walk`), recording an event trace (months visited, requests
    issued, files written and deleted).

Directory creation (`os.makedirs`) is not modelled: it never creates files,
and the claims below are about files and network requests.
-/

namespace DownloadGateIO

/-! ### Configuration constants (source lines 49–62) -/

def base_url : String := "https://download.gatedata.org"

def save_dir : String := "data/gateio"

def baseAssets : List String := ["BTC", "ETH", "USDT"]

def timeframes : List String := ["1m", "5m", "1h", "4h", "1d"]

def num_threads : Nat := 10

/-- `biz = "spot"`, source line 76. -/
def biz : String := "spot"

/-! ### Calendar dates

`datetime.date` values; year is an `Int` so that stepping backward is total
(Python would raise below year 1, which no claim reaches). -/

structure Date where
  year : Int
  month : Nat
  day : Nat
deriving DecidableEq

/-- The month field of a date is a real calendar month. -/
def Date.validMonth (d : Date) : Prop := 1 ≤ d.month ∧ d.month ≤ 12

instance (d : Date) : Decidable d.validMonth :=
  inferInstanceAs (Decidable (1 ≤ d.month ∧ d.month ≤ 12))

/-- Gregorian leap-year rule, as in Python's `calendar`/`datetime`. -/
def isLeap (y : Int) : Bool := (y % 4 == 0 && y % 100 != 0) || y % 400 == 0

def daysInMonth (y : Int) (m : Nat) : Nat :=
  if m = 2 then (if isLeap y then 29 else 28)
  else if m = 4 ∨ m = 6 ∨ m = 9 ∨ m = 11 then 30
  else 31

/-- Step a date back by one day (the effect of `timedelta(days=1)`). -/
def prevDay (d : Date) : Date :=
  if 1 < d.day then ⟨d.year, d.month, d.day - 1⟩
  else if 1 < d.month then ⟨d.year, d.month - 1, daysInMonth d.year (d.month - 1)⟩
  else ⟨d.year - 1, 12, 31⟩

/-- `d - timedelta(days=n)`, realised as `n` single-day steps. -/
def subDays (d : Date) : Nat → Date
  | 0 => d
  | n + 1 => prevDay (subDays d n)

/-! ### Month keys -/

/-- A (year, month) pair: the `%Y%m` component of URLs and paths. -/
structure MonthKey where
  year : Int
  month : Nat
deriving DecidableEq

def monthOf (d : Date) : MonthKey := ⟨d.year, d.month⟩

def MonthKey.valid (k : MonthKey) : Prop := 1 ≤ k.month ∧ k.month ≤ 12

instance (k : MonthKey) : Decidable k.valid :=
  inferInstanceAs (Decidable (1 ≤ k.month ∧ k.month ≤ 12))

/-- Linear position of a month on the time axis, for ordering arguments. -/
def MonthKey.idx (k : MonthKey) : Int := 12 * k.year + k.month

/-- The effect of `today - relativedelta(months=1)` on the month key
(source line 128): the previous calendar month.  `relativedelta` clamps the
day of month, but the (year, month) pair always moves back by exactly one. -/
def prevMonth (k : MonthKey) : MonthKey :=
  if k.month = 1 then ⟨k.year - 1, 12⟩ else ⟨k.year, k.month - 1⟩

/-- `n` applications of `prevMonth`, peeled from the inside. -/
def prevN : Nat → MonthKey → MonthKey
  | 0, m => m
  | n + 1, m => prevN n (prevMonth m)

/-- The descending chain `[m, m-1month, …]` of length `n`. -/
def monthsFrom : Nat → MonthKey → List MonthKey
  | 0, _ => []
  | n + 1, m => m :: monthsFrom n (prevMonth m)

/-! ### URL and local path (source lines 79, 82, 89–90) -/

/-- `strftime("%m")`: the month, zero-padded to two digits. -/
def pad2 (n : Nat) : String := if n < 10 then "0" ++ toString n else toString n

/-- `today.strftime("%Y%m")` (source line 79): the year as printed by `%Y`
followed by the two-digit month.  For years in 1000–9999 (every year any
claim touches) `%Y` prints exactly the decimal digits. -/
def yyyymm (k : MonthKey) : String := toString k.year ++ pad2 k.month

/-- The remote URL built on source line 89. -/
def url (ticker timeframe : String) (k : MonthKey) : String :=
  base_url ++ "/" ++ biz ++ "/candlesticks_" ++ timeframe ++ "/" ++ yyyymm k
    ++ "/" ++ ticker ++ "-" ++ yyyymm k ++ ".csv.gz"

/-- The local path built on source lines 82 and 90 (`os.path.join` with the
POSIX separator). -/
def save_path (ticker timeframe : String) (k : MonthKey) : String :=
  save_dir ++ "/" ++ ticker ++ "/" ++ timeframe ++ "/" ++ ticker ++ "-"
    ++ yyyymm k ++ ".csv.gz"

/-! ### Eligibility (source line 88) -/

/-- Python's `str.endswith`: suffix comparison on the character sequence. -/
def strEndsWith (s suf : String) : Bool :=
  suf.data == s.data.drop (s.data.length - suf.data.length)

/-- `any(ticker.endswith(asset) for asset in baseAssets)` (source line 88). -/
def eligible (ticker : String) : Bool :=
  baseAssets.any (fun asset => strEndsWith ticker asset)

/-! ### Gzip container model (source lines 93–100)

A stored file either is a well-formed gzip container around some payload
bytes, or it is not a gzip container / is truncated.  `gzip.open(p).read(1)`
returns up to one payload byte — zero bytes when the payload is empty — and
raises `OSError`/`EOFError` exactly when the container is malformed. -/

inductive GzipStream where
  | wellFormed (payload : List Nat)
  | malformed
deriving DecidableEq

/-- `gzip.open(save_path).read(1)`: `some bytes` on success (possibly empty),
`none` when the read raises. -/
def gzipRead1 : GzipStream → Option (List Nat)
  | .wellFormed p => some (p.take 1)
  | .malformed => none

/-- The integrity check of source lines 93–99 on an optional local file. -/
def isValidFile : Option GzipStream → Bool
  | some g => (gzipRead1 g).isSome
  | none => false

/-! ### Filesystem, remote archive, event trace -/

/-- The three path components that identify one archive file. -/
structure FileKey where
  ticker : String
  timeframe : String
  monthKey : MonthKey
deriving DecidableEq

def fkey (ticker timeframe : String) (m : MonthKey) : FileKey :=
  ⟨ticker, timeframe, m⟩

/-- The local filesystem, restricted to the partitioned archive paths. -/
abbrev FS := FileKey → Option GzipStream

def emptyFS : FS := fun _ => none

def updateFS (fs : FS) (k : FileKey) (v : Option GzipStream) : FS :=
  fun q => if q = k then v else fs q

/-- One remote answer for one month file: a 2xx body, a 404, another non-2xx
status (raised as `requests.exceptions.HTTPError` by `raise_for_status`,
source line 68), or a connection-level failure (an exception that is not an
`HTTPError` and so matches no `except` clause in the loop). -/
inductive RemoteResp where
  | ok (content : GzipStream)
  | notFound
  | httpError (status : Nat)
  | netError
deriving DecidableEq

abbrev Remote := FileKey → RemoteResp

/-- Observable actions of one walk, in program order. -/
inductive Event where
  | visit (m : MonthKey)
  | request (k : FileKey)
  | write (k : FileKey)
  | delete (k : FileKey)
deriving DecidableEq

/-! ### One iteration of the `while True:` loop (source lines 86–125) -/

/-- Continuation after one loop body: fall through to the month decrement,
`break`, or propagate an uncaught exception. -/
inductive StepRes where
  | cont (fs : FS)
  | stop (fs : FS)
  | raise (fs : FS)

/-- The loop body for month `m`: the eligibility check (line 88), then the
exists/validate/delete/re-download logic (lines 91–111) or the plain download
(lines 112–120).  A non-404 `HTTPError` is caught by the `except` clause and
then ignored — the `if` on the status has no `else` — so the body falls
through to the month decrement.  Only a non-`HTTPError` exception escapes. -/
def step (remote : Remote) (ticker timeframe : String) (m : MonthKey)
    (fs : FS) : List Event × StepRes :=
  if eligible ticker then
    match fs (fkey ticker timeframe m) with
    | some g =>
      match gzipRead1 g with
      | some _ =>
        ([.visit m], .cont fs)
      | none =>
        match remote (fkey ticker timeframe m) with
        | .ok content =>
          ([.visit m, .delete (fkey ticker timeframe m),
              .request (fkey ticker timeframe m), .write (fkey ticker timeframe m)],
            .cont (updateFS fs (fkey ticker timeframe m) (some content)))
        | .notFound =>
          ([.visit m, .delete (fkey ticker timeframe m),
              .request (fkey ticker timeframe m)],
            .stop (updateFS fs (fkey ticker timeframe m) none))
        | .httpError _ =>
          ([.visit m, .delete (fkey ticker timeframe m),
              .request (fkey ticker timeframe m)],
            .cont (updateFS fs (fkey ticker timeframe m) none))
        | .netError =>
          ([.visit m, .delete (fkey ticker timeframe m),
              .request (fkey ticker timeframe m)],
            .raise (updateFS fs (fkey ticker timeframe m) none))
    | none =>
      match remote (fkey ticker timeframe m) with
      | .ok content =>
        ([.visit m, .request (fkey ticker timeframe m),
            .write (fkey ticker timeframe m)],
          .cont (updateFS fs (fkey ticker timeframe m) (some content)))
      | .notFound =>
        ([.visit m, .request (fkey ticker timeframe m)], .stop fs)
      | .httpError _ =>
        ([.visit m, .request (fkey ticker timeframe m)], .cont fs)
      | .netError =>
        ([.visit m, .request (fkey ticker timeframe m)], .raise fs)
  else
    ([.visit m], .cont fs)

/-- How the walk ended: `break` was executed, the fuel bound was reached with
the loop still running, or an exception propagated out. -/
inductive Outcome where
  | finished
  | outOfFuel
  | errored
deriving DecidableEq

/-- The fueled `while True:` loop of `download_candlestick_data`:
run the body, then step the month back by one (source lines 127–129). -/
def walk (remote : Remote) (ticker timeframe : String) :
    Nat → MonthKey → FS → FS × List Event × Outcome
  | 0, _, fs => (fs, [], .outOfFuel)
  | fuel + 1, m, fs =>
    match step remote ticker timeframe m fs with
    | (ev, .cont fs1) =>
      let r := walk remote ticker timeframe fuel (prevMonth m) fs1
      (r.1, ev ++ r.2.1, r.2.2)
    | (ev, .stop fs1) => (fs1, ev, .finished)
    | (ev, .raise fs1) => (fs1, ev, .errored)

/-- `download_candlestick_data(ticker, timeframe)` (source lines 74–129):
`todayDate` models the value of `date.today()`; the walk starts at the month
of `date.today() - timedelta(days=50)` (source lines 77–79). -/
def download_candlestick_data (remote : Remote) (ticker timeframe : String)
    (todayDate : Date) (fuel : Nat) (fs : FS) : FS × List Event × Outcome :=
  walk remote ticker timeframe fuel (monthOf (subDays todayDate 50)) fs

/-- The months visited by a trace, in order. -/
def visitsOf (ev : List Event) : List MonthKey :=
  ev.filterMap (fun e => match e with | .visit m => some m | _ => none)

/-! ### Symbol discovery (source lines 34–46)

`get_usdt_btc_trading_pairs` issues one GET and then evaluates
`[pair["id"] for pair in response.json()]`.  There is no `raise_for_status`
and the status code is never read: the outcome depends only on whether the
request raised and on how the body parses. -/

/-- How `response.json()` and the subsequent comprehension see the body:
either the body is not JSON (`.json()` raises), or it yields a sequence of
items, each carrying its `"id"` field when one exists (`pair["id"]` raises
on an item without one). -/
inductive DiscoveryBody where
  | notJson
  | items (xs : List (Option String))
deriving DecidableEq

/-- The observable result of the listing request: the connection failed
(`requests.get` raised), or a response arrived with a status and a body. -/
inductive DiscoveryNet where
  | netFail
  | response (status : Nat) (body : DiscoveryBody)
deriving DecidableEq

/-- The exceptions that can escape `get_usdt_btc_trading_pairs`. -/
inductive DiscoveryError where
  | requestRaised
  | jsonDecodeRaised
  | idFieldRaised
deriving DecidableEq

/-- `[pair["id"] for pair in items]`: raises at the first item without an
`"id"` field, otherwise collects the fields in order. -/
def extractIds : List (Option String) → Except DiscoveryError (List String)
  | [] => .ok []
  | none :: _ => .error .idFieldRaised
  | some s :: rest => (extractIds rest).map (fun l => s :: l)

/-- `get_usdt_btc_trading_pairs` (source lines 34–46).  The `status` of the
response is bound but never inspected, mirroring the absence of
`raise_for_status` in the source. -/
def get_usdt_btc_trading_pairs (net : DiscoveryNet) :
    Except DiscoveryError (List String) :=
  match net with
  | .netFail => .error .requestRaised
  | .response _ body =>
    match body with
    | .notJson => .error .jsonDecodeRaised
    | .items xs => extractIds xs

/-! ### Spec-side formats (for the refinement claim about URL and path)

Modelled from the spec: the archive endpoint pattern
`{archive_base}/spot/candlesticks_{timeframe}/{yyyymm}/{symbol}-{yyyymm}.csv.gz`
and local layout `{root}/{symbol}/{timeframe}/{symbol}-{yyyymm}.csv.gz`,
where `yyyymm` is the four-digit year followed by the two-digit month. -/

/-- The four-digit, zero-padded year of the spec's `yyyymm`. -/
def pad4 (y : Int) : String :=
  if y < 10 then "000" ++ toString y
  else if y < 100 then "00" ++ toString y
  else if y < 1000 then "0" ++ toString y
  else toString y

/-- Modelled from the spec: four-digit year then two-digit month. -/
def spec_yyyymm (k : MonthKey) : String := pad4 k.year ++ pad2 k.month

/-- Modelled from the spec: the archive endpoint URL pattern of §6. -/
def spec_archive_url (symbol timeframe : String) (k : MonthKey) : String :=
  base_url ++ "/spot/candlesticks_" ++ timeframe ++ "/" ++ spec_yyyymm k
    ++ "/" ++ symbol ++ "-" ++ spec_yyyymm k ++ ".csv.gz"

/-- Modelled from the spec: the local storage layout of §6. -/
def spec_local_path (symbol timeframe : String) (k : MonthKey) : String :=
  save_dir ++ "/" ++ symbol ++ "/" ++ timeframe ++ "/" ++ symbol ++ "-"
    ++ spec_yyyymm k ++ ".csv.gz"

/-! ### Month arithmetic lemmas -/

theorem prevN_succ (n : Nat) (m : MonthKey) :
    prevN (n + 1) m = prevN n (prevMonth m) := rfl

theorem prevMonth_valid {k : MonthKey} (h : k.valid) : (prevMonth k).valid := by
  rcases h with ⟨h1, h2⟩
  unfold prevMonth MonthKey.valid
  split <;> dsimp only <;> omega

theorem idx_prevMonth {k : MonthKey} (h : k.valid) :
    (prevMonth k).idx = k.idx - 1 := by
  rcases h with ⟨h1, h2⟩
  unfold prevMonth MonthKey.idx
  split <;> dsimp only <;> omega

theorem prevN_valid : ∀ (n : Nat) {k : MonthKey}, k.valid → (prevN n k).valid
  | 0, _, h => h
  | n + 1, _, h => prevN_valid n (prevMonth_valid h)

theorem idx_prevN : ∀ (n : Nat) {k : MonthKey}, k.valid →
    (prevN n k).idx = k.idx - n
  | 0, _, _ => by simp [prevN]
  | n + 1, k, h => by
    rw [prevN_succ, idx_prevN n (prevMonth_valid h), idx_prevMonth h]
    push_cast
    ring

theorem monthsFrom_mem_idx : ∀ (n : Nat) {m x : MonthKey}, m.valid →
    x ∈ monthsFrom n (prevMonth m) → x.idx < m.idx
  | 0, m, x, _, hx => by simp [monthsFrom] at hx
  | n + 1, m, x, h, hx => by
    simp only [monthsFrom, List.mem_cons] at hx
    rcases hx with rfl | hx
    · rw [idx_prevMonth h]; omega
    · have := monthsFrom_mem_idx n (prevMonth_valid h) hx
      rw [idx_prevMonth h] at this; omega

theorem monthsFrom_pairwise : ∀ (n : Nat) {m : MonthKey}, m.valid →
    List.Pairwise (fun a b => b.idx < a.idx) (monthsFrom n m)
  | 0, _, _ => List.Pairwise.nil
  | n + 1, _, h =>
    List.Pairwise.cons (fun _ hb => monthsFrom_mem_idx n h hb)
      (monthsFrom_pairwise n (prevMonth_valid h))

theorem prevDay_validMonth {d : Date} (h : d.validMonth) :
    (prevDay d).validMonth := by
  rcases h with ⟨h1, h2⟩
  unfold prevDay Date.validMonth
  split
  · dsimp only; omega
  · split <;> dsimp only <;> omega

theorem subDays_validMonth {d : Date} (h : d.validMonth) :
    ∀ n, (subDays d n).validMonth
  | 0 => h
  | n + 1 => prevDay_validMonth (subDays_validMonth h n)

theorem monthOf_valid {d : Date} (h : d.validMonth) : (monthOf d).valid := h

/-! ### Step and walk unfolding lemmas -/

theorem walk_succ (remote : Remote) (ticker timeframe : String) (fuel : Nat)
    (m : MonthKey) (fs : FS) :
    walk remote ticker timeframe (fuel + 1) m fs =
      match step remote ticker timeframe m fs with
      | (ev, .cont fs1) =>
        ((walk remote ticker timeframe fuel (prevMonth m) fs1).1,
          ev ++ (walk remote ticker timeframe fuel (prevMonth m) fs1).2.1,
          (walk remote ticker timeframe fuel (prevMonth m) fs1).2.2)
      | (ev, .stop fs1) => (fs1, ev, .finished)
      | (ev, .raise fs1) => (fs1, ev, .errored) := by
  rw [walk]

theorem walk_cont {remote : Remote} {ticker timeframe : String} {m : MonthKey}
    {fs fs1 : FS} {ev : List Event} (fuel : Nat)
    (h : step remote ticker timeframe m fs = (ev, .cont fs1)) :
    walk remote ticker timeframe (fuel + 1) m fs =
      ((walk remote ticker timeframe fuel (prevMonth m) fs1).1,
        ev ++ (walk remote ticker timeframe fuel (prevMonth m) fs1).2.1,
        (walk remote ticker timeframe fuel (prevMonth m) fs1).2.2) := by
  rw [walk_succ, h]

theorem walk_stop {remote : Remote} {ticker timeframe : String} {m : MonthKey}
    {fs fs1 : FS} {ev : List Event} (fuel : Nat)
    (h : step remote ticker timeframe m fs = (ev, .stop fs1)) :
    walk remote ticker timeframe (fuel + 1) m fs = (fs1, ev, .finished) := by
  rw [walk_succ, h]

theorem walk_raise {remote : Remote} {ticker timeframe : String} {m : MonthKey}
    {fs fs1 : FS} {ev : List Event} (fuel : Nat)
    (h : step remote ticker timeframe m fs = (ev, .raise fs1)) :
    walk remote ticker timeframe (fuel + 1) m fs = (fs1, ev, .errored) := by
  rw [walk_succ, h]

theorem step_ineligible (remote : Remote) {ticker : String} (timeframe : String)
    (m : MonthKey) (fs : FS) (h : eligible ticker = false) :
    step remote ticker timeframe m fs = ([.visit m], .cont fs) := by
  simp only [step, h, Bool.false_eq_true, if_false]

theorem step_validFile {remote : Remote} {ticker timeframe : String}
    {m : MonthKey} {fs : FS} {g : GzipStream} {bs : List Nat}
    (helig : eligible ticker = true)
    (hfile : fs (fkey ticker timeframe m) = some g)
    (hread : gzipRead1 g = some bs) :
    step remote ticker timeframe m fs = ([.visit m], .cont fs) := by
  simp only [step, helig, hfile, hread]
  exact if_pos trivial

theorem step_absent_ok {remote : Remote} {ticker timeframe : String}
    {m : MonthKey} {fs : FS} {content : GzipStream}
    (helig : eligible ticker = true)
    (habs : fs (fkey ticker timeframe m) = none)
    (hrem : remote (fkey ticker timeframe m) = .ok content) :
    step remote ticker timeframe m fs =
      ([.visit m, .request (fkey ticker timeframe m),
          .write (fkey ticker timeframe m)],
        .cont (updateFS fs (fkey ticker timeframe m) (some content))) := by
  simp only [step, helig, habs, hrem]
  exact if_pos trivial

theorem step_absent_notFound {remote : Remote} {ticker timeframe : String}
    {m : MonthKey} {fs : FS}
    (helig : eligible ticker = true)
    (habs : fs (fkey ticker timeframe m) = none)
    (hrem : remote (fkey ticker timeframe m) = .notFound) :
    step remote ticker timeframe m fs =
      ([.visit m, .request (fkey ticker timeframe m)], .stop fs) := by
  simp only [step, helig, habs, hrem]
  exact if_pos trivial

theorem step_absent_httpError {remote : Remote} {ticker timeframe : String}
    {m : MonthKey} {fs : FS} {status : Nat}
    (helig : eligible ticker = true)
    (habs : fs (fkey ticker timeframe m) = none)
    (hrem : remote (fkey ticker timeframe m) = .httpError status) :
    step remote ticker timeframe m fs =
      ([.visit m, .request (fkey ticker timeframe m)], .cont fs) := by
  simp only [step, helig, habs, hrem]
  exact if_pos trivial

theorem step_corrupt_notFound {remote : Remote} {ticker timeframe : String}
    {m : MonthKey} {fs : FS} {g : GzipStream}
    (helig : eligible ticker = true)
    (hfile : fs (fkey ticker timeframe m) = some g)
    (hbad : gzipRead1 g = none)
    (hrem : remote (fkey ticker timeframe m) = .notFound) :
    step remote ticker timeframe m fs =
      ([.visit m, .delete (fkey ticker timeframe m),
          .request (fkey ticker timeframe m)],
        .stop (updateFS fs (fkey ticker timeframe m) none)) := by
  simp only [step, helig, hfile, hbad, hrem]
  exact if_pos trivial

/-! ### The walk of an ineligible ticker -/

theorem walk_ineligible (remote : Remote) (ticker timeframe : String)
    (h : eligible ticker = false) (fuel : Nat) :
    ∀ (m : MonthKey) (fs : FS),
      walk remote ticker timeframe fuel m fs =
        (fs, (monthsFrom fuel m).map Event.visit, .outOfFuel) := by
  induction fuel with
  | zero => intro m fs; rfl
  | succ fuel ih =>
    intro m fs
    rw [walk_cont fuel (step_ineligible remote timeframe m fs h), ih (prevMonth m) fs]
    simp [monthsFrom]

/-! ### The visit trace of a walk -/

theorem visitsOf_append (a b : List Event) :
    visitsOf (a ++ b) = visitsOf a ++ visitsOf b :=
  List.filterMap_append a b _

theorem step_visits (remote : Remote) (ticker timeframe : String)
    (m : MonthKey) (fs : FS) :
    visitsOf (step remote ticker timeframe m fs).1 = [m] := by
  unfold step
  repeat' split
  all_goals simp [visitsOf]

theorem walk_visits (remote : Remote) (ticker timeframe : String) (fuel : Nat) :
    ∀ (m : MonthKey) (fs : FS), ∃ len, len ≤ fuel ∧ (0 < fuel → 0 < len) ∧
      visitsOf (walk remote ticker timeframe fuel m fs).2.1 = monthsFrom len m := by
  induction fuel with
  | zero => exact fun m fs => ⟨0, le_rfl, by omega, rfl⟩
  | succ fuel ih =>
    intro m fs
    have hv := step_visits remote ticker timeframe m fs
    rcases hstep : step remote ticker timeframe m fs with ⟨ev, r⟩
    rw [hstep] at hv
    cases r with
    | cont fs1 =>
      rcases ih (prevMonth m) fs1 with ⟨len, hlen, _, hvis⟩
      refine ⟨len + 1, by omega, by omega, ?_⟩
      rw [walk_cont fuel hstep]
      show visitsOf (ev ++ _) = _
      rw [visitsOf_append, hv, hvis]
      rfl
    | stop fs1 =>
      refine ⟨1, by omega, by omega, ?_⟩
      rw [walk_stop fuel hstep]
      exact hv
    | raise fs1 =>
      refine ⟨1, by omega, by omega, ?_⟩
      rw [walk_raise fuel hstep]
      exact hv

/-! ### Requests, deletions and writes only touch invalid files -/

theorem invalid_of_none {fs : FS} {q : FileKey} (h : fs q = none) :
    isValidFile (fs q) = false := by rw [h]; rfl

theorem invalid_of_corrupt {fs : FS} {q : FileKey} {g : GzipStream}
    (h1 : fs q = some g) (h2 : gzipRead1 g = none) :
    isValidFile (fs q) = false := by
  rw [h1]
  simp [isValidFile, h2]

theorem updateFS_ne {fs : FS} {k : FileKey} {v : Option GzipStream} {q : FileKey}
    (h : updateFS fs k v q ≠ fs q) : q = k := by
  by_contra hq
  exact h (if_neg hq)

theorem step_corrupt_ok {remote : Remote} {ticker timeframe : String}
    {m : MonthKey} {fs : FS} {g content : GzipStream}
    (helig : eligible ticker = true)
    (hfile : fs (fkey ticker timeframe m) = some g)
    (hbad : gzipRead1 g = none)
    (hrem : remote (fkey ticker timeframe m) = .ok content) :
    step remote ticker timeframe m fs =
      ([.visit m, .delete (fkey ticker timeframe m),
          .request (fkey ticker timeframe m), .write (fkey ticker timeframe m)],
        .cont (updateFS fs (fkey ticker timeframe m) (some content))) := by
  simp only [step, helig, hfile, hbad, hrem]
  exact if_pos trivial

theorem step_corrupt_httpError {remote : Remote} {ticker timeframe : String}
    {m : MonthKey} {fs : FS} {g : GzipStream} {status : Nat}
    (helig : eligible ticker = true)
    (hfile : fs (fkey ticker timeframe m) = some g)
    (hbad : gzipRead1 g = none)
    (hrem : remote (fkey ticker timeframe m) = .httpError status) :
    step remote ticker timeframe m fs =
      ([.visit m, .delete (fkey ticker timeframe m),
          .request (fkey ticker timeframe m)],
        .cont (updateFS fs (fkey ticker timeframe m) none)) := by
  simp only [step, helig, hfile, hbad, hrem]
  exact if_pos trivial

theorem step_corrupt_netError {remote : Remote} {ticker timeframe : String}
    {m : MonthKey} {fs : FS} {g : GzipStream}
    (helig : eligible ticker = true)
    (hfile : fs (fkey ticker timeframe m) = some g)
    (hbad : gzipRead1 g = none)
    (hrem : remote (fkey ticker timeframe m) = .netError) :
    step remote ticker timeframe m fs =
      ([.visit m, .delete (fkey ticker timeframe m),
          .request (fkey ticker timeframe m)],
        .raise (updateFS fs (fkey ticker timeframe m) none)) := by
  simp only [step, helig, hfile, hbad, hrem]
  exact if_pos trivial

theorem step_absent_netError {remote : Remote} {ticker timeframe : String}
    {m : MonthKey} {fs : FS}
    (helig : eligible ticker = true)
    (habs : fs (fkey ticker timeframe m) = none)
    (hrem : remote (fkey ticker timeframe m) = .netError) :
    step remote ticker timeframe m fs =
      ([.visit m, .request (fkey ticker timeframe m)], .raise fs) := by
  simp only [step, helig, habs, hrem]
  exact if_pos trivial

theorem step_sound {remote : Remote} {ticker timeframe : String} {m : MonthKey}
    {fs : FS} {ev : List Event} {r : StepRes}
    (h : step remote ticker timeframe m fs = (ev, r)) :
    (∀ k, Event.request k ∈ ev → isValidFile (fs k) = false) ∧
    (∀ k, Event.delete k ∈ ev → isValidFile (fs k) = false) ∧
    (∀ fs1, (r = .cont fs1 ∨ r = .stop fs1 ∨ r = .raise fs1) →
        ∀ q, fs1 q ≠ fs q → isValidFile (fs q) = false) := by
  by_cases helig : eligible ticker = true
  · rcases hfs : fs (fkey ticker timeframe m) with _ | g
    · -- no local file: the key's slot is invalid (absent)
      have hbad : isValidFile (fs (fkey ticker timeframe m)) = false :=
        invalid_of_none hfs
      rcases hrem : remote (fkey ticker timeframe m) with content | _ | status | _ <;>
        [rw [step_absent_ok helig hfs hrem] at h;
         rw [step_absent_notFound helig hfs hrem] at h;
         rw [step_absent_httpError helig hfs hrem] at h;
         rw [step_absent_netError helig hfs hrem] at h] <;>
        (injection h with h1 h2; subst h1; subst h2;
          refine ⟨fun k hk => ?_, fun k hk => ?_, fun fs1 hr q hq => ?_⟩) <;>
        first
          | (simp at hk <;> (subst hk; exact hbad))
          | (rcases hr with hr | hr | hr <;> cases hr <;>
              first
                | exact absurd rfl hq
                | (have hq2 := updateFS_ne hq; subst hq2; exact hbad))
    · rcases hread : gzipRead1 g with _ | bs
      · -- the local file is corrupt
        have hbad : isValidFile (fs (fkey ticker timeframe m)) = false :=
          invalid_of_corrupt hfs hread
        rcases hrem : remote (fkey ticker timeframe m) with content | _ | status | _ <;>
          [rw [step_corrupt_ok helig hfs hread hrem] at h;
           rw [step_corrupt_notFound helig hfs hread hrem] at h;
           rw [step_corrupt_httpError helig hfs hread hrem] at h;
           rw [step_corrupt_netError helig hfs hread hrem] at h] <;>
          (injection h with h1 h2; subst h1; subst h2;
            refine ⟨fun k hk => ?_, fun k hk => ?_, fun fs1 hr q hq => ?_⟩) <;>
          first
            | (simp at hk <;> (subst hk; exact hbad))
            | (rcases hr with hr | hr | hr <;> cases hr <;>
                first
                  | exact absurd rfl hq
                  | (have hq2 := updateFS_ne hq; subst hq2; exact hbad))
      · -- the local file validates: nothing happens
        rw [step_validFile helig hfs hread] at h
        injection h with h1 h2
        subst h1; subst h2
        refine ⟨fun k hk => ?_, fun k hk => ?_, fun fs1 hr q hq => ?_⟩
        · simp at hk
        · simp at hk
        · rcases hr with hr | hr | hr <;> cases hr
          exact absurd rfl hq
  · -- ineligible ticker: nothing happens
    rw [Bool.not_eq_true] at helig
    rw [step_ineligible remote timeframe m fs helig] at h
    injection h with h1 h2
    subst h1; subst h2
    refine ⟨fun k hk => ?_, fun k hk => ?_, fun fs1 hr q hq => ?_⟩
    · simp at hk
    · simp at hk
    · rcases hr with hr | hr | hr <;> cases hr
      exact absurd rfl hq

theorem walk_frame (remote : Remote) (ticker timeframe : String) (fuel : Nat) :
    ∀ (m : MonthKey) (fs : FS),
      (∀ k, Event.request k ∈ (walk remote ticker timeframe fuel m fs).2.1 →
          isValidFile (fs k) = false) ∧
      (∀ k, Event.delete k ∈ (walk remote ticker timeframe fuel m fs).2.1 →
          isValidFile (fs k) = false) ∧
      (∀ k, (walk remote ticker timeframe fuel m fs).1 k ≠ fs k →
          isValidFile (fs k) = false) := by
  induction fuel with
  | zero =>
    intro m fs
    refine ⟨fun k hk => ?_, fun k hk => ?_, fun k hk => ?_⟩ <;>
      simp [walk] at hk
  | succ fuel ih =>
    intro m fs
    rcases hstep : step remote ticker timeframe m fs with ⟨ev, r⟩
    obtain ⟨hsr, hsd, hsf⟩ := step_sound hstep
    cases r with
    | cont fs1 =>
      rw [walk_cont fuel hstep]
      obtain ⟨ihr, ihd, ihf⟩ := ih (prevMonth m) fs1
      refine ⟨fun k hk => ?_, fun k hk => ?_, fun k hk => ?_⟩
      · rcases List.mem_append.mp hk with hk | hk
        · exact hsr k hk
        · by_cases hkk : fs1 k = fs k
          · have := ihr k hk; rwa [hkk] at this
          · exact hsf fs1 (Or.inl rfl) k hkk
      · rcases List.mem_append.mp hk with hk | hk
        · exact hsd k hk
        · by_cases hkk : fs1 k = fs k
          · have := ihd k hk; rwa [hkk] at this
          · exact hsf fs1 (Or.inl rfl) k hkk
      · by_cases hkk : fs1 k = fs k
        · have h2 : (walk remote ticker timeframe fuel (prevMonth m) fs1).1 k ≠ fs1 k := by
            rw [hkk]; exact hk
          have := ihf k h2; rwa [hkk] at this
        · exact hsf fs1 (Or.inl rfl) k hkk
    | stop fs1 =>
      rw [walk_stop fuel hstep]
      exact ⟨fun k hk => hsr k hk, fun k hk => hsd k hk,
        fun k hk => hsf fs1 (Or.inr (Or.inl rfl)) k hk⟩
    | raise fs1 =>
      rw [walk_raise fuel hstep]
      exact ⟨fun k hk => hsr k hk, fun k hk => hsd k hk,
        fun k hk => hsf fs1 (Or.inr (Or.inr rfl)) k hk⟩

/-! ### A completed walk writes a contiguous descending run of months -/

theorem walk_complete (remote : Remote) (ticker timeframe : String)
    (helig : eligible ticker = true) :
    ∀ (n : Nat) (start : MonthKey) (fuel : Nat) (fs : FS) (c : Nat → GzipStream),
      start.valid → n < fuel →
      (∀ i, i ≤ n → fs (fkey ticker timeframe (prevN i start)) = none) →
      (∀ i, i < n → remote (fkey ticker timeframe (prevN i start)) = .ok (c i)) →
      remote (fkey ticker timeframe (prevN n start)) = .notFound →
      (walk remote ticker timeframe fuel start fs).2.2 = .finished ∧
      (∀ i, i < n → (walk remote ticker timeframe fuel start fs).1
          (fkey ticker timeframe (prevN i start)) = some (c i)) ∧
      (walk remote ticker timeframe fuel start fs).1
          (fkey ticker timeframe (prevN n start)) = none ∧
      (∀ k, Event.request k ∈ (walk remote ticker timeframe fuel start fs).2.1 →
          ∃ i, i ≤ n ∧ k = fkey ticker timeframe (prevN i start)) ∧
      (∀ k, (walk remote ticker timeframe fuel start fs).1 k ≠ fs k →
          ∃ i, i < n ∧ k = fkey ticker timeframe (prevN i start)) := by
  intro n
  induction n with
  | zero =>
    intro start fuel fs c hval hfuel habs hok hnf
    obtain ⟨fuel, rfl⟩ : ∃ f, fuel = f + 1 := ⟨fuel - 1, by omega⟩
    have habs0 : fs (fkey ticker timeframe start) = none := habs 0 le_rfl
    have hstep := step_absent_notFound helig habs0 hnf
    rw [walk_stop fuel hstep]
    refine ⟨rfl, fun i hi => absurd hi (by omega), habs0, fun k hk => ?_,
      fun k hk => absurd rfl hk⟩
    simp at hk
    exact ⟨0, le_rfl, hk⟩
  | succ n ihn =>
    intro start fuel fs c hval hfuel habs hok hnf
    obtain ⟨fuel, rfl⟩ : ∃ f, fuel = f + 1 := ⟨fuel - 1, by omega⟩
    have habs0 : fs (fkey ticker timeframe start) = none := habs 0 (by omega)
    have hok0 : remote (fkey ticker timeframe start) = .ok (c 0) := hok 0 (by omega)
    have hstep := step_absent_ok helig habs0 hok0
    set fs1 := updateFS fs (fkey ticker timeframe start) (some (c 0)) with hfs1
    rw [walk_cont fuel hstep]
    dsimp only
    have hval1 : (prevMonth start).valid := prevMonth_valid hval
    have hne : ∀ i : Nat,
        fkey ticker timeframe (prevN (i + 1) start) ≠ fkey ticker timeframe start := by
      intro i heq
      have h1 := idx_prevN (i + 1) hval
      have h2 : prevN (i + 1) start = start := congrArg FileKey.monthKey heq
      rw [h2] at h1
      omega
    have habs1 : ∀ i, i ≤ n → fs1 (fkey ticker timeframe (prevN i (prevMonth start))) = none := by
      intro i hi
      rw [hfs1]
      simp only [updateFS]
      rw [← prevN_succ, if_neg (hne i)]
      exact habs (i + 1) (by omega)
    have hok1 : ∀ i, i < n →
        remote (fkey ticker timeframe (prevN i (prevMonth start))) = .ok (c (i + 1)) :=
      fun i hi => hok (i + 1) (by omega)
    have hnf1 : remote (fkey ticker timeframe (prevN n (prevMonth start))) = .notFound := hnf
    obtain ⟨hfin, hfiles, hbound, hreq, hframe⟩ :=
      ihn (prevMonth start) fuel fs1 (fun i => c (i + 1)) hval1 (by omega) habs1 hok1 hnf1
    refine ⟨hfin, ?_, hbound, ?_, ?_⟩
    · intro i hi
      match i with
      | 0 =>
        simp only [prevN]
        by_cases hch : (walk remote ticker timeframe fuel (prevMonth start) fs1).1
            (fkey ticker timeframe start) = fs1 (fkey ticker timeframe start)
        · rw [hch, hfs1]
          simp [updateFS]
        · obtain ⟨j, hj, hkey⟩ := hframe _ hch
          exact absurd hkey.symm (hne j)
      | j + 1 =>
        exact hfiles j (by omega)
    · intro k hk
      rcases List.mem_append.mp hk with hk | hk
      · simp at hk
        exact ⟨0, by omega, hk⟩
      · obtain ⟨i, hi, hkey⟩ := hreq k hk
        exact ⟨i + 1, by omega, hkey⟩
    · intro k hk
      by_cases hkk : fs1 k = fs k
      · have h2 : (walk remote ticker timeframe fuel (prevMonth start) fs1).1 k ≠ fs1 k := by
          rw [hkk]; exact hk
        obtain ⟨i, hi, hkey⟩ := hframe k h2
        exact ⟨i + 1, by omega, hkey⟩
      · have hk0 : k = fkey ticker timeframe start := by
          by_contra hne0
          refine hkk ?_
          rw [hfs1]
          simp only [updateFS]
          exact if_neg hne0
        exact ⟨0, by omega, hk0⟩

/-! ### Concrete fixtures used by counterexamples and witnesses -/

/-- A remote that answers 500 for August 2026 and serves every other month. -/
def c1Remote : Remote := fun k =>
  if k.monthKey = ⟨2026, 8⟩ then .httpError 500 else .ok (.wellFormed [1])

/-- A remote that serves August 2026 and answers 404 for every other month. -/
def c3Remote : Remote := fun k =>
  if k.monthKey = ⟨2026, 8⟩ then .ok (.wellFormed [7]) else .notFound

/-- A remote that answers 404 for every month. -/
def notFoundRemote : Remote := fun _ => .notFound

/-- A filesystem holding one corrupt file for (BTC_USDT, 1m, 2026-08). -/
def corruptFS : FS :=
  updateFS emptyFS (fkey "BTC_USDT" "1m" ⟨2026, 8⟩) (some .malformed)

/-- A filesystem holding one valid file for (BTC_USDT, 1m, 2026-08). -/
def validFS : FS :=
  updateFS emptyFS (fkey "BTC_USDT" "1m" ⟨2026, 8⟩) (some (.wellFormed [3]))

/-- A filesystem holding one well-formed gzip file with empty payload. -/
def emptyGzFS : FS :=
  updateFS emptyFS (fkey "BTC_USDT" "1m" ⟨2026, 8⟩) (some (.wellFormed []))

/-- A non-2xx listing response whose body still parses as a list of
objects carrying an `id` field. -/
def c4Response : DiscoveryNet :=
  .response 500 (.items [some "BTC_USDT", some "ETH_USDT"])

/-! ### Claim C1 -/

/-- C1 counterexample: with a remote answering HTTP 500 for August 2026 and
serving July 2026, the walk does not propagate the error (outcome is not
`errored`); it silently continues to the next older month, requesting and
downloading July 2026.  This refutes the claim that a non-2xx, non-404
status propagates out of the walk. -/
theorem c1_counterexample_http500_continues :
    (walk c1Remote "BTC_USDT" "1m" 2 ⟨2026, 8⟩ emptyFS).2.2 ≠ Outcome.errored ∧
    Event.request (fkey "BTC_USDT" "1m" ⟨2026, 7⟩) ∈
      (walk c1Remote "BTC_USDT" "1m" 2 ⟨2026, 8⟩ emptyFS).2.1 ∧
    Event.write (fkey "BTC_USDT" "1m" ⟨2026, 7⟩) ∈
      (walk c1Remote "BTC_USDT" "1m" 2 ⟨2026, 8⟩ emptyFS).2.1 := by
  decide

/-- C1 (amended): when a per-month download fails with a non-2xx HTTP status
other than 404, the `HTTPError` is caught and discarded: nothing is written
for that month and the walk silently continues to the next older month.
Only a non-`HTTPError` (connection-level) failure propagates. -/
theorem c1_amended_httpError_swallowed (remote : Remote)
    (ticker timeframe : String) (m : MonthKey) (fs : FS) (fuel status : Nat)
    (helig : eligible ticker = true)
    (habsent : fs (fkey ticker timeframe m) = none)
    (herr : remote (fkey ticker timeframe m) = .httpError status) :
    walk remote ticker timeframe (fuel + 1) m fs =
      ((walk remote ticker timeframe fuel (prevMonth m) fs).1,
        .visit m :: .request (fkey ticker timeframe m) ::
          (walk remote ticker timeframe fuel (prevMonth m) fs).2.1,
        (walk remote ticker timeframe fuel (prevMonth m) fs).2.2) := by
  rw [walk_cont fuel (step_absent_httpError helig habsent herr)]
  rfl

/-- Witness for the amended C1 at a concrete input. -/
theorem c1_amended_witness :
    eligible "BTC_USDT" = true ∧
    emptyFS (fkey "BTC_USDT" "1m" ⟨2026, 8⟩) = none ∧
    c1Remote (fkey "BTC_USDT" "1m" ⟨2026, 8⟩) = .httpError 500 ∧
    walk c1Remote "BTC_USDT" "1m" 2 ⟨2026, 8⟩ emptyFS =
      ((walk c1Remote "BTC_USDT" "1m" 1 (prevMonth ⟨2026, 8⟩) emptyFS).1,
        .visit ⟨2026, 8⟩ :: .request (fkey "BTC_USDT" "1m" ⟨2026, 8⟩) ::
          (walk c1Remote "BTC_USDT" "1m" 1 (prevMonth ⟨2026, 8⟩) emptyFS).2.1,
        (walk c1Remote "BTC_USDT" "1m" 1 (prevMonth ⟨2026, 8⟩) emptyFS).2.2) :=
  ⟨by decide, rfl, by decide,
    c1_amended_httpError_swallowed c1Remote "BTC_USDT" "1m" ⟨2026, 8⟩ emptyFS 1 500
      (by decide) rfl (by decide)⟩

/-! ### Claim C2 -/

/-- C2 (code behavior at the claimed input): for a ticker that ends with no
configured quote-asset suffix the loop issues no request and writes no file,
but it never executes `break` — for every fuel bound the loop is still
running (`outOfFuel`), never `finished`.  The `break` in the ineligible
branch of the source is commented out, so the walk spins forever instead of
terminating as the claim states. -/
theorem c2_ineligible_walk_never_terminates (remote : Remote)
    (ticker timeframe : String) (fuel : Nat) (m : MonthKey) (fs : FS)
    (h : eligible ticker = false) :
    (walk remote ticker timeframe fuel m fs).2.2 = Outcome.outOfFuel ∧
    (walk remote ticker timeframe fuel m fs).1 = fs ∧
    (∀ k, Event.request k ∉ (walk remote ticker timeframe fuel m fs).2.1) ∧
    (∀ k, Event.write k ∉ (walk remote ticker timeframe fuel m fs).2.1) := by
  rw [walk_ineligible remote ticker timeframe h fuel m fs]
  refine ⟨rfl, rfl, ?_, ?_⟩ <;> intro k hk <;>
    (obtain ⟨x, hx, hcon⟩ := List.mem_map.mp hk; simp at hcon)

/-- Witness for C2 at a concrete ineligible ticker. -/
theorem c2_witness :
    eligible "FOO-XYZ" = false ∧
    ((walk notFoundRemote "FOO-XYZ" "1m" 3 ⟨2026, 8⟩ emptyFS).2.2 = Outcome.outOfFuel ∧
      (walk notFoundRemote "FOO-XYZ" "1m" 3 ⟨2026, 8⟩ emptyFS).1 = emptyFS ∧
      (∀ k, Event.request k ∉ (walk notFoundRemote "FOO-XYZ" "1m" 3 ⟨2026, 8⟩ emptyFS).2.1) ∧
      (∀ k, Event.write k ∉ (walk notFoundRemote "FOO-XYZ" "1m" 3 ⟨2026, 8⟩ emptyFS).2.1)) :=
  ⟨by decide,
    c2_ineligible_walk_never_terminates notFoundRemote "FOO-XYZ" "1m" 3 ⟨2026, 8⟩ emptyFS
      (by decide)⟩

/-! ### Claim C3 -/

/-- C3: for an eligible ticker walking from a valid start month over an
initially empty local tree, if the remote serves months `start, …,
start-(n-1)` and answers 404 at `start-n`, the completed walk ends with
`finished`, every month strictly inside the run has its file present, the
boundary month has none, and every request addressed one of the visited
months — the written files form a contiguous descending run with no gaps. -/
theorem c3_contiguous_run (remote : Remote) (ticker timeframe : String)
    (start : MonthKey) (n fuel : Nat) (c : Nat → GzipStream)
    (helig : eligible ticker = true) (hval : start.valid) (hfuel : n < fuel)
    (hok : ∀ i, i < n → remote (fkey ticker timeframe (prevN i start)) = .ok (c i))
    (hnf : remote (fkey ticker timeframe (prevN n start)) = .notFound) :
    (walk remote ticker timeframe fuel start emptyFS).2.2 = .finished ∧
    (∀ i, i < n → (walk remote ticker timeframe fuel start emptyFS).1
        (fkey ticker timeframe (prevN i start)) = some (c i)) ∧
    (walk remote ticker timeframe fuel start emptyFS).1
        (fkey ticker timeframe (prevN n start)) = none ∧
    (∀ k, Event.request k ∈ (walk remote ticker timeframe fuel start emptyFS).2.1 →
        ∃ i, i ≤ n ∧ k = fkey ticker timeframe (prevN i start)) := by
  obtain ⟨h1, h2, h3, h4, _⟩ :=
    walk_complete remote ticker timeframe helig n start fuel emptyFS c hval hfuel
      (fun i _ => rfl) hok hnf
  exact ⟨h1, h2, h3, h4⟩

/-- Witness for C3 at a concrete instance: the remote serves exactly August
2026 and 404s July 2026 and earlier. -/
theorem c3_witness :
    eligible "BTC_USDT" = true ∧ MonthKey.valid ⟨2026, 8⟩ ∧ 1 < 2 ∧
    (∀ i, i < 1 → c3Remote (fkey "BTC_USDT" "1m" (prevN i ⟨2026, 8⟩)) =
        .ok ((fun _ => GzipStream.wellFormed [7]) i)) ∧
    c3Remote (fkey "BTC_USDT" "1m" (prevN 1 ⟨2026, 8⟩)) = .notFound ∧
    ((walk c3Remote "BTC_USDT" "1m" 2 ⟨2026, 8⟩ emptyFS).2.2 = .finished ∧
      (∀ i, i < 1 → (walk c3Remote "BTC_USDT" "1m" 2 ⟨2026, 8⟩ emptyFS).1
          (fkey "BTC_USDT" "1m" (prevN i ⟨2026, 8⟩)) =
            some ((fun _ => GzipStream.wellFormed [7]) i)) ∧
      (walk c3Remote "BTC_USDT" "1m" 2 ⟨2026, 8⟩ emptyFS).1
          (fkey "BTC_USDT" "1m" (prevN 1 ⟨2026, 8⟩)) = none ∧
      (∀ k, Event.request k ∈ (walk c3Remote "BTC_USDT" "1m" 2 ⟨2026, 8⟩ emptyFS).2.1 →
          ∃ i, i ≤ 1 ∧ k = fkey "BTC_USDT" "1m" (prevN i ⟨2026, 8⟩))) :=
  ⟨by decide, by decide, by decide, by decide, by decide,
    c3_contiguous_run c3Remote "BTC_USDT" "1m" ⟨2026, 8⟩ 1 2
      (fun _ => GzipStream.wellFormed [7])
      (by decide) (by decide) (by decide) (by decide) (by decide)⟩

/-! ### Claim C4 -/

/-- C4 counterexample: a listing response with status 500 whose body parses
as a list of objects with `id` fields makes discovery return a symbol list,
refuting the claim that every non-2xx response propagates a fatal error. -/
theorem c4_counterexample_non2xx_returns_list :
    299 < 500 ∧
    get_usdt_btc_trading_pairs c4Response = .ok ["BTC_USDT", "ETH_USDT"] :=
  ⟨by omega, rfl⟩

/-- C4 (amended): discovery never inspects the HTTP status — its result is
the same for any two statuses with the same body — and it propagates an
error exactly when the request itself raised or the body fails to parse as
a sequence of id-bearing objects. -/
theorem c4_amended_status_ignored :
    (∀ (s1 s2 : Nat) (body : DiscoveryBody),
      get_usdt_btc_trading_pairs (.response s1 body) =
        get_usdt_btc_trading_pairs (.response s2 body)) ∧
    get_usdt_btc_trading_pairs .netFail = .error .requestRaised ∧
    (∀ s : Nat, get_usdt_btc_trading_pairs (.response s .notJson) =
        .error .jsonDecodeRaised) :=
  ⟨fun _ _ _ => rfl, rfl, fun _ => rfl⟩

/-! ### Claim C5 -/

/-- C5: when the local file for the current month exists but fails the gzip
check, the file is deleted and exactly one re-download request is issued;
if that request answers 404 the walk stops at once (`finished`) with no
older month visited — the final trace is exactly one visit, one delete and
one request. -/
theorem c5_corrupt_redownload_notFound_stops (remote : Remote)
    (ticker timeframe : String) (m : MonthKey) (fs : FS) (g : GzipStream)
    (fuel : Nat)
    (helig : eligible ticker = true)
    (hfile : fs (fkey ticker timeframe m) = some g)
    (hbad : gzipRead1 g = none)
    (hnf : remote (fkey ticker timeframe m) = .notFound) :
    walk remote ticker timeframe (fuel + 1) m fs =
      (updateFS fs (fkey ticker timeframe m) none,
        [.visit m, .delete (fkey ticker timeframe m),
          .request (fkey ticker timeframe m)],
        .finished) :=
  walk_stop fuel (step_corrupt_notFound helig hfile hbad hnf)

/-- Witness for C5: a corrupt August 2026 file with an all-404 remote. -/
theorem c5_witness :
    eligible "BTC_USDT" = true ∧
    corruptFS (fkey "BTC_USDT" "1m" ⟨2026, 8⟩) = some .malformed ∧
    gzipRead1 .malformed = none ∧
    notFoundRemote (fkey "BTC_USDT" "1m" ⟨2026, 8⟩) = .notFound ∧
    walk notFoundRemote "BTC_USDT" "1m" 1 ⟨2026, 8⟩ corruptFS =
      (updateFS corruptFS (fkey "BTC_USDT" "1m" ⟨2026, 8⟩) none,
        [.visit ⟨2026, 8⟩, .delete (fkey "BTC_USDT" "1m" ⟨2026, 8⟩),
          .request (fkey "BTC_USDT" "1m" ⟨2026, 8⟩)],
        .finished) :=
  ⟨by decide, by decide, rfl, rfl,
    c5_corrupt_redownload_notFound_stops notFoundRemote "BTC_USDT" "1m" ⟨2026, 8⟩
      corruptFS .malformed 0 (by decide) (by decide) rfl rfl⟩

/-! ### Claim C6 -/

/-- C6: any month key whose local file exists and passes the gzip check is
never requested during a walk and its file is left unchanged — in
particular, re-running the fetch over a tree of valid files downloads
nothing for those months. -/
theorem c6_valid_files_skipped (remote : Remote) (ticker timeframe : String)
    (fuel : Nat) (m : MonthKey) (fs : FS) (k : FileKey)
    (hvalid : isValidFile (fs k) = true) :
    Event.request k ∉ (walk remote ticker timeframe fuel m fs).2.1 ∧
    (walk remote ticker timeframe fuel m fs).1 k = fs k := by
  obtain ⟨hreq, _, hfs⟩ := walk_frame remote ticker timeframe fuel m fs
  constructor
  · intro hk
    have := hreq k hk
    rw [hvalid] at this
    exact Bool.noConfusion this
  · by_contra hne
    have := hfs k hne
    rw [hvalid] at this
    exact Bool.noConfusion this

/-- Witness for C6: a valid August 2026 file is not requested and survives
a two-month walk unchanged. -/
theorem c6_witness :
    isValidFile (validFS (fkey "BTC_USDT" "1m" ⟨2026, 8⟩)) = true ∧
    (Event.request (fkey "BTC_USDT" "1m" ⟨2026, 8⟩) ∉
        (walk notFoundRemote "BTC_USDT" "1m" 2 ⟨2026, 8⟩ validFS).2.1 ∧
      (walk notFoundRemote "BTC_USDT" "1m" 2 ⟨2026, 8⟩ validFS).1
          (fkey "BTC_USDT" "1m" ⟨2026, 8⟩) =
        validFS (fkey "BTC_USDT" "1m" ⟨2026, 8⟩)) :=
  ⟨by decide,
    c6_valid_files_skipped notFoundRemote "BTC_USDT" "1m" 2 ⟨2026, 8⟩ validFS
      (fkey "BTC_USDT" "1m" ⟨2026, 8⟩) (by decide)⟩

/-! ### Claim C7 -/

/-- C7: for a ticker that ends with no configured quote-asset suffix, no
walk of any timeframe ever writes a file: there is no write event and the
filesystem is returned unchanged, for every fuel bound, month and initial
tree. -/
theorem c7_ineligible_no_writes (remote : Remote) (ticker timeframe : String)
    (fuel : Nat) (m : MonthKey) (fs : FS)
    (h : eligible ticker = false) :
    (∀ k, Event.write k ∉ (walk remote ticker timeframe fuel m fs).2.1) ∧
    (walk remote ticker timeframe fuel m fs).1 = fs := by
  rw [walk_ineligible remote ticker timeframe h fuel m fs]
  refine ⟨?_, rfl⟩
  intro k hk
  obtain ⟨x, hx, hcon⟩ := List.mem_map.mp hk
  simp at hcon

/-- Witness for C7 at the concrete ineligible ticker FOO-XYZ. -/
theorem c7_witness :
    eligible "FOO-XYZ" = false ∧
    ((∀ k, Event.write k ∉ (walk c3Remote "FOO-XYZ" "5m" 4 ⟨2026, 9⟩ emptyFS).2.1) ∧
      (walk c3Remote "FOO-XYZ" "5m" 4 ⟨2026, 9⟩ emptyFS).1 = emptyFS) :=
  ⟨by decide,
    c7_ineligible_no_writes c3Remote "FOO-XYZ" "5m" 4 ⟨2026, 9⟩ emptyFS (by decide)⟩

/-! ### Claim C8 -/

/-- C8: the first month a walk visits is the calendar month of
(today − 50 days), and the visited months are the consecutive descending
chain of calendar months from there: strictly descending positions on the
month axis, one month at a time, none skipped or reordered. -/
theorem c8_visits_descending_from_start (remote : Remote)
    (ticker timeframe : String) (todayDate : Date) (fuel : Nat) (fs : FS)
    (hvm : todayDate.validMonth) :
    ∃ len, len ≤ fuel ∧
      visitsOf (download_candlestick_data remote ticker timeframe todayDate fuel fs).2.1 =
        monthsFrom len (monthOf (subDays todayDate 50)) ∧
      (0 < fuel →
        (visitsOf (download_candlestick_data remote ticker timeframe todayDate fuel fs).2.1).head? =
          some (monthOf (subDays todayDate 50))) ∧
      List.Pairwise (fun a b => b.idx < a.idx)
        (visitsOf (download_candlestick_data remote ticker timeframe todayDate fuel fs).2.1) := by
  have hval : (monthOf (subDays todayDate 50)).valid :=
    monthOf_valid (subDays_validMonth hvm 50)
  obtain ⟨len, h1, h2, h3⟩ :=
    walk_visits remote ticker timeframe fuel (monthOf (subDays todayDate 50)) fs
  refine ⟨len, h1, h3, ?_, ?_⟩
  · intro hf
    show (visitsOf (walk remote ticker timeframe fuel (monthOf (subDays todayDate 50)) fs).2.1).head? = _
    rw [h3]
    have hlen := h2 hf
    match len, hlen with
    | l + 1, _ => rfl
  · show List.Pairwise _ (visitsOf (walk remote ticker timeframe fuel (monthOf (subDays todayDate 50)) fs).2.1)
    rw [h3]
    exact monthsFrom_pairwise len hval

/-- Witness for C8 with today = 2026-10-12 and an all-404 remote. -/
theorem c8_witness :
    Date.validMonth ⟨2026, 10, 12⟩ ∧
    (∃ len, len ≤ 3 ∧
      visitsOf (download_candlestick_data notFoundRemote "BTC_USDT" "1m" ⟨2026, 10, 12⟩ 3 emptyFS).2.1 =
        monthsFrom len (monthOf (subDays ⟨2026, 10, 12⟩ 50)) ∧
      (0 < 3 →
        (visitsOf (download_candlestick_data notFoundRemote "BTC_USDT" "1m" ⟨2026, 10, 12⟩ 3 emptyFS).2.1).head? =
          some (monthOf (subDays ⟨2026, 10, 12⟩ 50))) ∧
      List.Pairwise (fun a b => b.idx < a.idx)
        (visitsOf (download_candlestick_data notFoundRemote "BTC_USDT" "1m" ⟨2026, 10, 12⟩ 3 emptyFS).2.1)) :=
  ⟨by decide,
    c8_visits_descending_from_start notFoundRemote "BTC_USDT" "1m" ⟨2026, 10, 12⟩ 3 emptyFS
      (by decide)⟩

/-! ### Claim C9 -/

/-- C9: for every ticker, timeframe and month key with a four-digit year,
the remote URL the walk requests and the local path it writes are exactly
the spec's `{archive_base}/spot/candlesticks_{timeframe}/{yyyymm}/{symbol}-{yyyymm}.csv.gz`
and `{root}/{symbol}/{timeframe}/{symbol}-{yyyymm}.csv.gz` with `yyyymm`
the four-digit year followed by the two-digit month. -/
theorem c9_url_and_path_formats (ticker timeframe : String) (k : MonthKey)
    (hy : 1000 ≤ k.year) :
    url ticker timeframe k = spec_archive_url ticker timeframe k ∧
    save_path ticker timeframe k = spec_local_path ticker timeframe k := by
  have h10 : ¬ (k.year < 10) := by omega
  have h100 : ¬ (k.year < 100) := by omega
  have h1000 : ¬ (k.year < 1000) := by omega
  have hp : pad4 k.year = toString k.year := by
    unfold pad4
    rw [if_neg h10, if_neg h100, if_neg h1000]
  constructor <;>
    simp only [url, spec_archive_url, save_path, spec_local_path, yyyymm,
      spec_yyyymm, hp, biz] <;>
    rfl

/-- Witness for C9 at (BTC_USDT, 1m, 2026-08). -/
theorem c9_witness :
    (1000 : Int) ≤ 2026 ∧
    (url "BTC_USDT" "1m" ⟨2026, 8⟩ = spec_archive_url "BTC_USDT" "1m" ⟨2026, 8⟩ ∧
      save_path "BTC_USDT" "1m" ⟨2026, 8⟩ = spec_local_path "BTC_USDT" "1m" ⟨2026, 8⟩) :=
  ⟨by omega, c9_url_and_path_formats "BTC_USDT" "1m" ⟨2026, 8⟩ (by decide)⟩

/-! ### Claim C10 -/

/-- C10: a well-formed gzip container with an empty payload passes the
integrity check — `read(1)` returns zero bytes without raising — so the
month's file is treated as valid: it is never deleted, never re-requested,
and survives the walk unchanged. -/
theorem c10_empty_gzip_valid (remote : Remote) (ticker timeframe : String)
    (fuel : Nat) (m : MonthKey) (fs : FS) (k : FileKey)
    (hfile : fs k = some (GzipStream.wellFormed [])) :
    gzipRead1 (GzipStream.wellFormed []) = some [] ∧
    Event.request k ∉ (walk remote ticker timeframe fuel m fs).2.1 ∧
    Event.delete k ∉ (walk remote ticker timeframe fuel m fs).2.1 ∧
    (walk remote ticker timeframe fuel m fs).1 k = some (GzipStream.wellFormed []) := by
  obtain ⟨hreq, hdel, hfs⟩ := walk_frame remote ticker timeframe fuel m fs
  have hv : isValidFile (fs k) = true := by rw [hfile]; rfl
  refine ⟨rfl, ?_, ?_, ?_⟩
  · intro hk
    have := hreq k hk
    rw [hv] at this
    exact Bool.noConfusion this
  · intro hk
    have := hdel k hk
    rw [hv] at this
    exact Bool.noConfusion this
  · by_cases hne : (walk remote ticker timeframe fuel m fs).1 k = fs k
    · rw [hne, hfile]
    · have := hfs k hne
      rw [hv] at this
      exact Bool.noConfusion this

/-- Witness for C10: an empty-payload gzip file for August 2026. -/
theorem c10_witness :
    emptyGzFS (fkey "BTC_USDT" "1m" ⟨2026, 8⟩) = some (GzipStream.wellFormed []) ∧
    (gzipRead1 (GzipStream.wellFormed []) = some [] ∧
      Event.request (fkey "BTC_USDT" "1m" ⟨2026, 8⟩) ∉
        (walk notFoundRemote "BTC_USDT" "1m" 2 ⟨2026, 8⟩ emptyGzFS).2.1 ∧
      Event.delete (fkey "BTC_USDT" "1m" ⟨2026, 8⟩) ∉
        (walk notFoundRemote "BTC_USDT" "1m" 2 ⟨2026, 8⟩ emptyGzFS).2.1 ∧
      (walk notFoundRemote "BTC_USDT" "1m" 2 ⟨2026, 8⟩ emptyGzFS).1
          (fkey "BTC_USDT" "1m" ⟨2026, 8⟩) = some (GzipStream.wellFormed [])) :=
  ⟨by decide,
    c10_empty_gzip_valid notFoundRemote "BTC_USDT" "1m" 2 ⟨2026, 8⟩ emptyGzFS
      (fkey "BTC_USDT" "1m" ⟨2026, 8⟩) (by decide)⟩

end DownloadGateIO
